import Mathlib

/-!
Verification of the aggregation engine of an S3 inventory tool.

The definitions below are a shallow embedding of `src/s3_insight/aggregate.py`
(class `S3Aggregator`: `aggregate_buckets`, `aggregate_account`,
`_compute_bucket_metrics`, `get_top_buckets`, `get_top_extensions`) and of the
age classification in `src/s3_insight/inventory.py` (`_inventory_bucket`).

Modelling conventions:
- Python dicts used as records become structures; dicts used as accumulating
  mappings become insertion-ordered association lists (`List (String × β)`),
  with `m[k] = v` modelled by append-if-absent followed by in-place update,
  which matches Python's insertion-order semantics.
- Raw inventory records may miss fields (they are loaded from JSON), so every
  field of `RawRecord` is an `Option`; reading a required field raises
  `KeyError` in Python, modelled as `Except.error (.malformedRecord _)`,
  while `dict.get(k, default)` becomes `Option.getD`.
- Python's float division becomes exact division on `ℚ`; the divisions the
  code performs are guarded by `if count > 0` checks exactly as in the source,
  so `ℚ`'s `x / 0 = 0` convention is never relied upon.
- `sorted(..., key=..., reverse=True)` (a stable descending sort) becomes
  `List.mergeSort` with the relation `le a b := key b ≤ key a`, which is
  stable and sorts descending, matching CPython's stable `sorted`.
- Timestamps (`datetime` values compared in `_inventory_bucket`) become
  integers (seconds); `timedelta(days=30)` is `30 * 86400` seconds.
-/

namespace S3Insight

/-- `age_buckets` histogram: `{"recent": _, "old": _}`. -/
structure AgeBuckets where
  recent : Nat
  old : Nat
deriving DecidableEq, Repr

/-- One entry of a bucket's `file_extensions` histogram: `{"count": _, "size": _}`. -/
structure ExtData where
  count : Nat
  size : Nat
deriving DecidableEq, Repr

/-- A raw inventory record as produced by `S3Inventory` / loaded from JSONL.
Every field is optional because records come from external JSON; Python code
accessing a missing key raises `KeyError`. -/
structure RawRecord where
  bucket_name : Option String := none
  region : Option String := none
  object_count : Option Nat := none
  total_size : Option Nat := none
  sampled : Option Bool := none
  sample_size : Option Nat := none
  storage_classes : Option (List (String × Nat)) := none
  file_extensions : Option (List (String × ExtData)) := none
  age_buckets : Option AgeBuckets := none
  inventory_date : Option String := none
  error : Option String := none
deriving DecidableEq, Repr

/-- Error taxonomy of the aggregation core: a `KeyError` on a required record
field (MalformedRecord), or a `KeyError` on an unknown sort key in
`get_top_buckets` (InvalidField). -/
inductive AggError where
  | malformedRecord (field : String)
  | invalidField
deriving DecidableEq, Repr

/-- Reading a required field of a record: `bucket_data["k"]` in Python. -/
def reqField (field : String) : Option α → Except AggError α
  | some a => .ok a
  | none => .error (.malformedRecord field)

/-- One entry of `storage_class_breakdown`. -/
structure SCBreakdown where
  count : Nat
  size : ℚ
  size_gb : ℚ
  percentage : ℚ
deriving DecidableEq, Repr

/-- One side of `age_breakdown`. -/
structure AgePart where
  count : Nat
  percentage : ℚ
deriving DecidableEq, Repr

/-- `age_breakdown`: per-age-bucket count and percentage. -/
structure AgeBreakdown where
  recent : AgePart
  old : AgePart
deriving DecidableEq, Repr

/-- The derived per-bucket metrics dict built by `_compute_bucket_metrics`. -/
structure BucketMetrics where
  bucket_name : String
  region : String
  object_count : Nat
  total_size : Nat
  total_size_gb : ℚ
  total_size_tb : ℚ
  sampled : Bool
  sample_size : Nat
  storage_classes : List (String × Nat)
  file_extensions : List (String × ExtData)
  age_buckets : AgeBuckets
  inventory_date : String
  avg_object_size : ℚ
  avg_object_size_kb : ℚ
  storage_class_breakdown : List (String × SCBreakdown)
  age_breakdown : AgeBreakdown
deriving DecidableEq, Repr

/-- `S3Aggregator._compute_bucket_metrics`, line for line: required fields are
read (raising on absence), `sampled` / `sample_size` use `.get` with defaults
`False` / `object_count`, averages and the storage-class / age breakdowns are
guarded by `object_count > 0` resp. `recent + old > 0`. -/
def compute_bucket_metrics (bucket_data : RawRecord) : Except AggError BucketMetrics := do
  let object_count ← reqField "object_count" bucket_data.object_count
  let total_size ← reqField "total_size" bucket_data.total_size
  let bucket_name ← reqField "bucket_name" bucket_data.bucket_name
  let region ← reqField "region" bucket_data.region
  let storage_classes ← reqField "storage_classes" bucket_data.storage_classes
  let file_extensions ← reqField "file_extensions" bucket_data.file_extensions
  let age_buckets ← reqField "age_buckets" bucket_data.age_buckets
  let inventory_date ← reqField "inventory_date" bucket_data.inventory_date
  let avg : ℚ := if object_count > 0 then (total_size : ℚ) / (object_count : ℚ) else 0
  let breakdown : List (String × SCBreakdown) := storage_classes.map (fun p =>
    if object_count > 0 then
      let estimated_size : ℚ := (p.2 : ℚ) * ((total_size : ℚ) / (object_count : ℚ))
      (p.1, SCBreakdown.mk p.2 estimated_size (estimated_size / 1024 ^ 3)
        (((p.2 : ℚ) / (object_count : ℚ)) * 100))
    else
      (p.1, SCBreakdown.mk 0 0 0 0))
  let age_total := age_buckets.recent + age_buckets.old
  let ageBd : AgeBreakdown :=
    if age_total > 0 then
      AgeBreakdown.mk
        (AgePart.mk age_buckets.recent (((age_buckets.recent : ℚ) / (age_total : ℚ)) * 100))
        (AgePart.mk age_buckets.old (((age_buckets.old : ℚ) / (age_total : ℚ)) * 100))
    else
      AgeBreakdown.mk (AgePart.mk 0 0) (AgePart.mk 0 0)
  pure {
    bucket_name := bucket_name
    region := region
    object_count := object_count
    total_size := total_size
    total_size_gb := (total_size : ℚ) / 1024 ^ 3
    total_size_tb := (total_size : ℚ) / 1024 ^ 4
    sampled := bucket_data.sampled.getD false
    sample_size := bucket_data.sample_size.getD object_count
    storage_classes := storage_classes
    file_extensions := file_extensions
    age_buckets := age_buckets
    inventory_date := inventory_date
    avg_object_size := avg
    avg_object_size_kb := avg / 1024
    storage_class_breakdown := breakdown
    age_breakdown := ageBd }

/-- `S3Aggregator.aggregate_buckets`: skip records with an `error` field,
compute metrics for the rest (propagating any `KeyError`), keeping input
order. -/
def aggregate_buckets : List (String × RawRecord) → Except AggError (List (String × BucketMetrics))
  | [] => .ok []
  | (bucket_name, bucket_data) :: rest =>
    if bucket_data.error.isSome then
      aggregate_buckets rest
    else do
      let metrics ← compute_bucket_metrics bucket_data
      let tail ← aggregate_buckets rest
      pure ((bucket_name, metrics) :: tail)

/-- First value bound to key `c` in an insertion-ordered association list. -/
def lookupKey (c : String) : List (String × β) → Option β
  | [] => none
  | p :: rest => if p.1 = c then some p.2 else lookupKey c rest

/-- `c in m` for a Python dict modelled as an association list. -/
def hasKey (c : String) (m : List (String × β)) : Bool :=
  (lookupKey c m).isSome

/-- In-place update of the entry at key `c` (Python `m[c] = f(m[c])`). -/
def updAt (c : String) (f : β → β) (m : List (String × β)) : List (String × β) :=
  m.map (fun p => if p.1 = c then (p.1, f p.2) else p)

/-- One account-level `storage_classes` entry: `{count, size, size_gb}`. -/
structure SCAcc where
  count : Nat
  size : ℚ
  size_gb : ℚ
deriving DecidableEq, Repr

/-- One account-level `file_extensions` entry: `{count, size, size_gb}`. -/
structure ExtAcc where
  count : Nat
  size : Nat
  size_gb : ℚ
deriving DecidableEq, Repr

/-- Processing one `(storage_class, count)` pair of one bucket inside
`aggregate_account`: insert a zero entry on first sight, add `count`, and —
only when the bucket has objects — add this bucket's local size estimate
`count * (total_size / object_count)` and refresh `size_gb`. -/
def scStep (object_count total_size : Nat) (m : List (String × SCAcc))
    (storage_class : String) (count : Nat) : List (String × SCAcc) :=
  let m1 := if hasKey storage_class m then m else m ++ [(storage_class, SCAcc.mk 0 0 0)]
  let m2 := updAt storage_class (fun e => { e with count := e.count + count }) m1
  if object_count > 0 then
    updAt storage_class (fun e =>
      let s := e.size + (count : ℚ) * ((total_size : ℚ) / (object_count : ℚ))
      SCAcc.mk e.count s (s / 1024 ^ 3)) m2
  else m2

/-- Processing one `(ext, {count, size})` pair of one bucket inside
`aggregate_account`. -/
def extStep (m : List (String × ExtAcc)) (ext : String) (ext_data : ExtData) :
    List (String × ExtAcc) :=
  let m1 := if hasKey ext m then m else m ++ [(ext, ExtAcc.mk 0 0 0)]
  updAt ext (fun a =>
    let s := a.size + ext_data.size
    ExtAcc.mk (a.count + ext_data.count) s ((s : ℚ) / 1024 ^ 3)) m1

/-- The running totals of `aggregate_account` before derived fields are added. -/
structure AccState where
  total_objects : Nat
  total_size : Nat
  storage_classes : List (String × SCAcc)
  file_extensions : List (String × ExtAcc)
  age_recent : Nat
  age_old : Nat
  regions : List (String × Nat)
  sampled_buckets : Nat
deriving DecidableEq, Repr

def initAccState : AccState := ⟨0, 0, [], [], 0, 0, [], 0⟩

/-- `regions[region] = regions.get(region, 0) + 1`. -/
def incRegion (region : String) (m : List (String × Nat)) : List (String × Nat) :=
  if hasKey region m then updAt region (· + 1) m else m ++ [(region, 1)]

/-- The body of `aggregate_account`'s loop for one bucket. -/
def foldBucket (st : AccState) (metrics : BucketMetrics) : AccState :=
  { total_objects := st.total_objects + metrics.object_count
    total_size := st.total_size + metrics.total_size
    storage_classes := metrics.storage_classes.foldl
      (fun m p => scStep metrics.object_count metrics.total_size m p.1 p.2) st.storage_classes
    file_extensions := metrics.file_extensions.foldl
      (fun m p => extStep m p.1 p.2) st.file_extensions
    age_recent := st.age_recent + metrics.age_buckets.recent
    age_old := st.age_old + metrics.age_buckets.old
    regions := incRegion metrics.region st.regions
    sampled_buckets := st.sampled_buckets + (if metrics.sampled then 1 else 0) }

/-- The account-level metrics dict built by `aggregate_account`. -/
structure AccountMetrics where
  bucket_count : Nat
  total_objects : Nat
  total_size : Nat
  storage_classes : List (String × SCAcc)
  file_extensions : List (String × ExtAcc)
  age_buckets : AgeBuckets
  regions : List (String × Nat)
  sampled_buckets : Nat
  avg_object_size : ℚ
  avg_object_size_kb : ℚ
  total_size_gb : ℚ
  total_size_tb : ℚ
deriving DecidableEq, Repr

/-- `sorted(..., key=lambda x: x[1]["count"], reverse=True)` as a stable
descending comparison on extension entries. -/
def extDescLe (a b : String × ExtAcc) : Bool :=
  b.2.count ≤ a.2.count

/-- `S3Aggregator.aggregate_account`: fold all buckets into the running
totals, then add the 0-guarded averages, the gb/tb sizes, and re-sort
`file_extensions` by descending count. -/
def aggregate_account (bucket_metrics : List (String × BucketMetrics)) : AccountMetrics :=
  let st := bucket_metrics.foldl (fun s p => foldBucket s p.2) initAccState
  let avg : ℚ := if st.total_objects > 0 then (st.total_size : ℚ) / (st.total_objects : ℚ) else 0
  { bucket_count := bucket_metrics.length
    total_objects := st.total_objects
    total_size := st.total_size
    storage_classes := st.storage_classes
    file_extensions := st.file_extensions.mergeSort extDescLe
    age_buckets := AgeBuckets.mk st.age_recent st.age_old
    regions := st.regions
    sampled_buckets := st.sampled_buckets
    avg_object_size := avg
    avg_object_size_kb := avg / 1024
    total_size_gb := (st.total_size : ℚ) / 1024 ^ 3
    total_size_tb := (st.total_size : ℚ) / 1024 ^ 4 }

/-- The numeric sort keys of the per-bucket metrics dict, with their
accessors, used by `get_top_buckets` (`x[1][sort_by]`). -/
def numericFields : List (String × (BucketMetrics → ℚ)) :=
  [("object_count", fun m => (m.object_count : ℚ)),
   ("total_size", fun m => (m.total_size : ℚ)),
   ("total_size_gb", fun m => m.total_size_gb),
   ("total_size_tb", fun m => m.total_size_tb),
   ("sample_size", fun m => (m.sample_size : ℚ)),
   ("avg_object_size", fun m => m.avg_object_size),
   ("avg_object_size_kb", fun m => m.avg_object_size_kb)]

/-- All keys of the metrics dict built by `_compute_bucket_metrics`; a
`sort_by` outside this list raises `KeyError` in `get_top_buckets`. -/
def metricsFieldNames : List String :=
  ["bucket_name", "region", "object_count", "total_size", "total_size_gb", "total_size_tb",
   "sampled", "sample_size", "storage_classes", "file_extensions", "age_buckets",
   "inventory_date", "avg_object_size", "avg_object_size_kb", "storage_class_breakdown",
   "age_breakdown"]

/-- Stable descending comparison on buckets by a numeric metrics field. -/
def bucketDescLe (f : BucketMetrics → ℚ) (a b : String × BucketMetrics) : Bool :=
  f b.2 ≤ f a.2

/-- `S3Aggregator.get_top_buckets` (restricted to the numeric sort keys the
spec allows): the `KeyError` (`InvalidField`) for an unknown `sort_by` key is
raised by the key lambda `x[1][sort_by]` inside `sorted`, which CPython
evaluates once per element — so on an empty mapping the lambda never runs
and the call returns `[]` even for an unknown key; on a non-empty mapping an
unknown key raises. For a known key: sort descending by that field, stably,
and take the first `top_n`. -/
def get_top_buckets (bucket_metrics : List (String × BucketMetrics)) (top_n : Nat)
    (sort_by : String) : Except AggError (List (String × BucketMetrics)) :=
  match lookupKey sort_by numericFields with
  | none =>
    if bucket_metrics.isEmpty then .ok []
    else .error .invalidField
  | some f => .ok ((bucket_metrics.mergeSort (bucketDescLe f)).take top_n)

/-- `S3Aggregator.get_top_extensions`: sort the account `file_extensions` by
descending count, stably, and take the first `top_n`. -/
def get_top_extensions (account_metrics : AccountMetrics) (top_n : Nat) :
    List (String × ExtAcc) :=
  (account_metrics.file_extensions.mergeSort extDescLe).take top_n

/-- The age test of `S3Inventory._inventory_bucket`:
`thirty_days_ago = now - timedelta(days=30)`; an object is counted as recent
iff `last_modified_utc > thirty_days_ago` (timestamps in seconds). -/
def classifyRecent (last_modified_utc collected_at : Int) : Bool :=
  last_modified_utc > collected_at - 30 * 86400

/-- The per-object age-histogram increment of `_inventory_bucket`: exactly one
of the two buckets is incremented. -/
def ageIncrement (last_modified_utc collected_at : Int) (ab : AgeBuckets) : AgeBuckets :=
  if classifyRecent last_modified_utc collected_at then
    { ab with recent := ab.recent + 1 }
  else
    { ab with old := ab.old + 1 }

/-! ### Specification-side definitions (for refinement-style claims)

These follow the spec's wording of what the account-level storage-class
estimates should be — a sum of per-bucket local estimates — to be compared
with the accumulator the source code actually builds. -/

/-- Spec wording: this bucket's object count for class `c` (its
`storage_classes` histogram entry, 0 when absent). -/
def specClassCount (c : String) (b : BucketMetrics) : Nat :=
  (b.storage_classes.map (fun p => if p.1 = c then p.2 else 0)).sum

/-- Spec wording: this bucket's local byte estimate for class `c`:
`count * (total_size_bytes / object_count)`, taken as 0 contribution when
`object_count` is 0. -/
def specClassSize (c : String) (b : BucketMetrics) : ℚ :=
  if b.object_count > 0 then
    (specClassCount c b : ℚ) * ((b.total_size : ℚ) / (b.object_count : ℚ))
  else 0

/-- Spec wording: this bucket's extension count for label `e`. -/
def specExtCount (c : String) (b : BucketMetrics) : Nat :=
  (b.file_extensions.map (fun p => if p.1 = c then p.2.count else 0)).sum

/-- Spec wording: this bucket's extension byte size for label `e`. -/
def specExtSize (c : String) (b : BucketMetrics) : Nat :=
  (b.file_extensions.map (fun p => if p.1 = c then p.2.size else 0)).sum

/-! ### Association-list lemmas -/

theorem lookupKey_nil (c : String) : lookupKey (β := β) c [] = none := rfl

theorem lookupKey_append (c : String) (m1 m2 : List (String × β)) :
    lookupKey c (m1 ++ m2) = (lookupKey c m1).or (lookupKey c m2) := by
  induction m1 with
  | nil => simp [lookupKey]
  | cons p rest ih =>
    by_cases h : p.1 = c <;> simp [lookupKey, h, ih]

theorem lookupKey_updAt (c c' : String) (f : β → β) (m : List (String × β)) :
    lookupKey c' (updAt c f m) =
      if c' = c then (lookupKey c' m).map f else lookupKey c' m := by
  induction m with
  | nil => simp [lookupKey, updAt]
  | cons p rest ih =>
    obtain ⟨a, b⟩ := p
    by_cases h2 : a = c'
    · by_cases h1 : a = c
      · subst h2; subst h1
        simp [updAt, lookupKey]
      · subst h2
        simp [updAt, lookupKey, h1, Ne.symm h1]
    · by_cases h1 : a = c
      · subst h1
        simp [updAt, lookupKey, h2, Ne.symm h2] at ih ⊢
        exact ih
      · simp [updAt, lookupKey, h1, h2] at ih ⊢
        exact ih

theorem lookupKey_isSome_iff_mem (c : String) (m : List (String × β)) :
    (lookupKey c m).isSome = true ↔ c ∈ m.map Prod.fst := by
  induction m with
  | nil => simp [lookupKey]
  | cons p rest ih =>
    by_cases h : p.1 = c
    · simp [lookupKey, h]
    · simp [lookupKey, h, ih, Ne.symm h]

theorem lookupKey_eq_none_of_not_mem (c : String) (m : List (String × β))
    (h : c ∉ m.map Prod.fst) : lookupKey c m = none := by
  cases hl : lookupKey c m with
  | none => rfl
  | some v =>
    exact absurd ((lookupKey_isSome_iff_mem c m).1 (by simp [hl])) h

theorem mem_of_lookupKey_eq_some (c : String) (m : List (String × β)) (v : β)
    (h : lookupKey c m = some v) : (c, v) ∈ m := by
  induction m with
  | nil => simp [lookupKey] at h
  | cons p rest ih =>
    obtain ⟨a, b⟩ := p
    by_cases hp : a = c
    · subst hp
      simp [lookupKey] at h
      subst h
      exact List.mem_cons_self _ _
    · simp [lookupKey, hp] at h
      exact List.mem_cons_of_mem _ (ih h)

theorem keys_updAt (c : String) (f : β → β) (m : List (String × β)) :
    (updAt c f m).map Prod.fst = m.map Prod.fst := by
  unfold updAt
  rw [List.map_map]
  have : (Prod.fst ∘ fun p : String × β => if p.1 = c then (p.1, f p.2) else p) = Prod.fst := by
    funext p
    by_cases h : p.1 = c <;> simp [h]
  rw [this]

theorem lookupKey_eq_of_mem_of_nodup (c : String) (v : β) (m : List (String × β))
    (hnd : (m.map Prod.fst).Nodup) (hv : (c, v) ∈ m) : lookupKey c m = some v := by
  induction m with
  | nil => simp at hv
  | cons p rest ih =>
    obtain ⟨a, b⟩ := p
    rw [List.map_cons, List.nodup_cons] at hnd
    rcases List.mem_cons.1 hv with hv1 | hv1
    · injection hv1 with h1 h2
      subst h1; subst h2
      simp [lookupKey]
    · have hc : a ≠ c := by
        intro h
        apply hnd.1
        rw [h]
        exact List.mem_map.2 ⟨(c, v), hv1, rfl⟩
      simp [lookupKey, hc]
      exact ih hnd.2 hv1

/-- `lookupKey` is invariant under permutation of an association list with
no duplicate keys. -/
theorem lookupKey_perm (c : String) (m1 m2 : List (String × β))
    (hp : m1.Perm m2) (hnd : (m1.map Prod.fst).Nodup) :
    lookupKey c m1 = lookupKey c m2 := by
  have hnd2 : (m2.map Prod.fst).Nodup := (hp.map Prod.fst).nodup_iff.1 hnd
  cases h1 : lookupKey c m1 with
  | some v =>
    exact (lookupKey_eq_of_mem_of_nodup c v m2 hnd2
      (hp.mem_iff.1 (mem_of_lookupKey_eq_some c m1 v h1))).symm
  | none =>
    cases h2 : lookupKey c m2 with
    | none => rfl
    | some v =>
      have : (c, v) ∈ m1 := hp.mem_iff.2 (mem_of_lookupKey_eq_some c m2 v h2)
      rw [lookupKey_eq_of_mem_of_nodup c v m1 hnd this] at h1
      exact absurd h1 (by simp)

/-! ### The end-to-end scenario of the spec (two buckets) -/

/-- `bucket1`: region `us-east-1`, 100 objects, 1,024,000 bytes, all
`STANDARD`, all `txt`, age 60 recent / 40 old. -/
def scenarioRec1 : RawRecord :=
  { bucket_name := some "bucket1", region := some "us-east-1",
    object_count := some 100, total_size := some 1024000,
    storage_classes := some [("STANDARD", 100)],
    file_extensions := some [("txt", ExtData.mk 100 1024000)],
    age_buckets := some (AgeBuckets.mk 60 40),
    inventory_date := some "2023-01-01T00:00:00" }

/-- `bucket2`: region `us-west-2`, 200 objects, 2,048,000 bytes, all
`STANDARD`, all `jpg`, age 120 recent / 80 old, `sampled = true`. -/
def scenarioRec2 : RawRecord :=
  { bucket_name := some "bucket2", region := some "us-west-2",
    object_count := some 200, total_size := some 2048000,
    sampled := some true,
    storage_classes := some [("STANDARD", 200)],
    file_extensions := some [("jpg", ExtData.mk 200 2048000)],
    age_buckets := some (AgeBuckets.mk 120 80),
    inventory_date := some "2023-01-01T00:00:00" }

def scenarioInput : List (String × RawRecord) :=
  [("bucket1", scenarioRec1), ("bucket2", scenarioRec2)]

/-- The per-bucket metrics the scenario's `aggregate_buckets` call produces. -/
def scenarioMetrics : List (String × BucketMetrics) :=
  ((aggregate_buckets scenarioInput).toOption).getD []

/-- C1: composing the bucket-metrics computation with `aggregate_account` on
the spec's two-bucket scenario yields `bucket_count = 2`,
`total_objects = 300`, `total_size_bytes = 3,072,000`,
`avg_object_size_bytes = 10240`, `avg_object_size_kb = 10.0`,
`regions = {us-east-1: 1, us-west-2: 1}`, `sampled_bucket_count = 1` and
`age_buckets = {recent: 180, old: 120}` (source field names `total_size`,
`avg_object_size`, `sampled_buckets`). -/
theorem c1_end_to_end_scenario :
    (aggregate_buckets scenarioInput).isOk = true ∧
    (aggregate_account scenarioMetrics).bucket_count = 2 ∧
    (aggregate_account scenarioMetrics).total_objects = 300 ∧
    (aggregate_account scenarioMetrics).total_size = 3072000 ∧
    (aggregate_account scenarioMetrics).avg_object_size = 10240 ∧
    (aggregate_account scenarioMetrics).avg_object_size_kb = 10 ∧
    (aggregate_account scenarioMetrics).regions = [("us-east-1", 1), ("us-west-2", 1)] ∧
    (aggregate_account scenarioMetrics).sampled_buckets = 1 ∧
    (aggregate_account scenarioMetrics).age_buckets = AgeBuckets.mk 180 120 := by
  refine ⟨by decide, by decide, by decide, by decide, ?_, ?_, by decide, by decide, by decide⟩ <;>
    norm_num [scenarioMetrics, scenarioInput, scenarioRec1, scenarioRec2, aggregate_buckets,
      compute_bucket_metrics, reqField, aggregate_account, foldBucket, initAccState,
      scStep, extStep, incRegion, hasKey, lookupKey, updAt, Except.toOption,
      List.foldl, Bind.bind, Except.bind, pure, Except.pure, Option.getD]

/-- C9: refuted on the code (code bug). The collector's own comment says
`recent` means "≤ 30 days", and the spec says the exact 30-day boundary is
classified as recent, but `_inventory_bucket` tests
`last_modified_utc > thirty_days_ago` strictly: an object whose last-modified
timestamp is exactly 30 days (2,592,000 s) before collection time is counted
in the `old` bucket. Each object still lands in exactly one bucket. -/
theorem c9_thirty_day_boundary_goes_old :
    classifyRecent (1700000000 - 30 * 86400) 1700000000 = false ∧
    ageIncrement (1700000000 - 30 * 86400) 1700000000 (AgeBuckets.mk 0 0) = AgeBuckets.mk 0 1 ∧
    classifyRecent (1700000000 - 30 * 86400 + 1) 1700000000 = true := by
  refine ⟨by decide, ?_, by decide⟩
  simp [ageIncrement, classifyRecent]

/-- C2: for every valid, well-formed, error-free record with
`object_count == 0`, the bucket-metrics computation succeeds with
`avg_object_size = 0` and `avg_object_size_kb = 0`, every percentage in
`storage_class_breakdown` and `age_breakdown` is 0 (validity makes the age
histogram empty when there are no objects), and at account level the
`total_objects == 0` branch likewise yields 0 averages: every division is
behind a positivity guard, so no division error can occur. -/
theorem c2_zero_object_policy :
    (∀ (r : RawRecord) (bn rg inv : String) (ts : Nat) (sc : List (String × Nat))
        (fe : List (String × ExtData)) (ab : AgeBuckets),
      r.error = none →
      r.object_count = some 0 →
      r.total_size = some ts →
      r.bucket_name = some bn →
      r.region = some rg →
      r.storage_classes = some sc →
      r.file_extensions = some fe →
      r.age_buckets = some ab →
      r.inventory_date = some inv →
      ab.recent + ab.old ≤ 0 →
      ∃ m, compute_bucket_metrics r = .ok m ∧
        m.avg_object_size = 0 ∧ m.avg_object_size_kb = 0 ∧
        (∀ p ∈ m.storage_class_breakdown, p.2.percentage = 0) ∧
        m.age_breakdown.recent.percentage = 0 ∧
        m.age_breakdown.old.percentage = 0) ∧
    (∀ bms : List (String × BucketMetrics),
      (aggregate_account bms).total_objects = 0 →
      (aggregate_account bms).avg_object_size = 0 ∧
      (aggregate_account bms).avg_object_size_kb = 0) := by
  constructor
  · intro r bn rg inv ts sc fe ab _ h0 hts hbn hrg hsc hfe hab hinv hage
    have hr : ab.recent = 0 := by omega
    have ho : ab.old = 0 := by omega
    simp only [compute_bucket_metrics, reqField, h0, hts, hbn, hrg, hsc, hfe, hab, hinv,
      Bind.bind, Except.bind, pure, Except.pure]
    refine ⟨_, rfl, ?_, ?_, ?_, ?_, ?_⟩ <;>
      simp [hr, ho, List.mem_map]
    intro a b x x1 _ _ hb
    rw [← hb]
  · intro bms h0
    have : (aggregate_account bms).avg_object_size = 0 := by
      unfold aggregate_account at h0 ⊢
      simp only at h0
      simp [h0]
    exact ⟨this, by
      unfold aggregate_account at h0 ⊢
      simp only at h0
      simp [h0]⟩

/-- Witness for C2 at a concrete zero-object record (with a nonempty
storage-class histogram, whose entry still gets percentage 0) and a concrete
empty account. -/
theorem c2_zero_object_policy_witness :
    (∃ m, compute_bucket_metrics
        { bucket_name := some "empty", region := some "us-east-1",
          object_count := some 0, total_size := some 5,
          storage_classes := some [("GLACIER", 7)],
          file_extensions := some [],
          age_buckets := some (AgeBuckets.mk 0 0),
          inventory_date := some "2023-01-01T00:00:00" } = .ok m ∧
      m.avg_object_size = 0 ∧ m.avg_object_size_kb = 0 ∧
      (∀ p ∈ m.storage_class_breakdown, p.2.percentage = 0) ∧
      m.age_breakdown.recent.percentage = 0 ∧
      m.age_breakdown.old.percentage = 0) ∧
    ((aggregate_account []).avg_object_size = 0 ∧
      (aggregate_account []).avg_object_size_kb = 0) :=
  ⟨c2_zero_object_policy.1 _ "empty" "us-east-1" "2023-01-01T00:00:00" 5 [("GLACIER", 7)] []
      (AgeBuckets.mk 0 0) rfl rfl rfl rfl rfl rfl rfl rfl rfl (by decide),
    c2_zero_object_policy.2 [] (by decide)⟩

/-- C10: an error-free record missing the optional `sampled` / `sample_size`
fields is not rejected: `_compute_bucket_metrics` reads them with
`dict.get` defaults, succeeding with `sampled = false` and
`sample_size = object_count`; by contrast, dropping the required
`object_count` field from the same record makes the computation fail with a
MalformedRecord-style error. -/
theorem c10_sampling_field_defaults (r : RawRecord) (bn rg inv : String) (oc ts : Nat)
    (sc : List (String × Nat)) (fe : List (String × ExtData)) (ab : AgeBuckets)
    (hs : r.sampled = none) (hss : r.sample_size = none)
    (h1 : r.object_count = some oc) (h2 : r.total_size = some ts)
    (h3 : r.bucket_name = some bn) (h4 : r.region = some rg)
    (h5 : r.storage_classes = some sc) (h6 : r.file_extensions = some fe)
    (h7 : r.age_buckets = some ab) (h8 : r.inventory_date = some inv) :
    (∃ m, compute_bucket_metrics r = .ok m ∧ m.sampled = false ∧ m.sample_size = oc) ∧
    compute_bucket_metrics { r with object_count := none } =
      .error (.malformedRecord "object_count") := by
  constructor
  · simp only [compute_bucket_metrics, reqField, hs, hss, h1, h2, h3, h4, h5, h6, h7, h8,
      Bind.bind, Except.bind, pure, Except.pure]
    exact ⟨_, rfl, by simp, by simp⟩
  · simp [compute_bucket_metrics, reqField, Bind.bind, Except.bind]

/-- Witness for C10 at a concrete record with `sampled` and `sample_size`
absent. -/
theorem c10_sampling_field_defaults_witness :
    (∃ m, compute_bucket_metrics
        { bucket_name := some "b", region := some "us-east-1",
          object_count := some 3, total_size := some 30,
          storage_classes := some [("STANDARD", 3)],
          file_extensions := some [("txt", ExtData.mk 3 30)],
          age_buckets := some (AgeBuckets.mk 2 1),
          inventory_date := some "2023-01-01T00:00:00" } = .ok m ∧
      m.sampled = false ∧ m.sample_size = 3) ∧
    compute_bucket_metrics
        { bucket_name := some "b", region := some "us-east-1",
          object_count := none, total_size := some 30,
          storage_classes := some [("STANDARD", 3)],
          file_extensions := some [("txt", ExtData.mk 3 30)],
          age_buckets := some (AgeBuckets.mk 2 1),
          inventory_date := some "2023-01-01T00:00:00" } =
      .error (.malformedRecord "object_count") :=
  c10_sampling_field_defaults _ "b" "us-east-1" "2023-01-01T00:00:00" 3 30
    [("STANDARD", 3)] [("txt", ExtData.mk 3 30)] (AgeBuckets.mk 2 1)
    rfl rfl rfl rfl rfl rfl rfl rfl rfl rfl

/-- C7, counterexample to the claim as stated: on the empty bucket-metrics
mapping, `sorted` never evaluates the key lambda, so `get_top_buckets` with a
`sort_by` key absent from the metrics schema returns the empty result rather
than failing with `InvalidField`. -/
theorem c7_empty_mapping_counterexample :
    get_top_buckets ([] : List (String × BucketMetrics)) 5 "no_such_field" = .ok [] ∧
    ¬ get_top_buckets ([] : List (String × BucketMetrics)) 5 "no_such_field" =
        .error .invalidField := by
  constructor
  · rfl
  · intro h
    simp [get_top_buckets, lookupKey, numericFields] at h

/-- C7 (amended): for every non-empty bucket-metrics mapping, every `top_n`
and every `sort_by` key that is not a field of the metrics objects,
`get_top_buckets` fails with the `InvalidField` error kind instead of
returning a result (on the empty mapping the key lambda is never evaluated
and an empty result is returned). -/
theorem c7_invalid_sort_key (bucket_metrics : List (String × BucketMetrics)) (top_n : Nat)
    (sort_by : String) (hk : sort_by ∉ metricsFieldNames)
    (hne : bucket_metrics ≠ []) :
    get_top_buckets bucket_metrics top_n sort_by = .error .invalidField := by
  have hsub : ∀ x ∈ numericFields.map Prod.fst, x ∈ metricsFieldNames := by decide
  have hnone : lookupKey sort_by numericFields = none := by
    apply lookupKey_eq_none_of_not_mem
    intro hmem
    exact hk (hsub sort_by hmem)
  cases bucket_metrics with
  | nil => exact absurd rfl hne
  | cons p rest =>
    unfold get_top_buckets
    rw [hnone]
    rfl

/-- Witness for C7 at a concrete unknown sort key and the non-empty scenario
mapping. -/
theorem c7_invalid_sort_key_witness :
    get_top_buckets scenarioMetrics 5 "no_such_field" = .error .invalidField :=
  c7_invalid_sort_key scenarioMetrics 5 "no_such_field" (by decide) (by decide)

/-- C4: `aggregate_buckets` returns a mapping whose keys are exactly the keys
of the input records that carry no `error` field: errored records are skipped
(no entry, no zero-row) and never make the call fail, while every non-errored
(computable) record yields exactly one entry, in input order. -/
theorem c4_error_records_filtered (l : List (String × RawRecord))
    (hok : ∀ p ∈ l, p.2.error = none → ∃ m, compute_bucket_metrics p.2 = .ok m) :
    ∃ out, aggregate_buckets l = .ok out ∧
      out.map Prod.fst = (l.filter (fun p => p.2.error.isNone)).map Prod.fst := by
  induction l with
  | nil => exact ⟨[], rfl, rfl⟩
  | cons p rest ih =>
    obtain ⟨name, data⟩ := p
    obtain ⟨out, hout, hkeys⟩ := ih (fun q hq => hok q (List.mem_cons_of_mem _ hq))
    by_cases he : data.error.isSome
    · refine ⟨out, ?_, ?_⟩
      · simpa [aggregate_buckets, he] using hout
      · have : data.error.isNone = false := by
          cases h : data.error with
          | none => rw [h] at he; simp at he
          | some v => simp [h]
        simp [this, hkeys]
    · have hen : data.error = none := by
        cases h : data.error with
        | none => rfl
        | some v => rw [h] at he; simp at he
      obtain ⟨m, hm⟩ := hok (name, data) (List.mem_cons_self _ _) hen
      refine ⟨(name, m) :: out, ?_, ?_⟩
      · simp [aggregate_buckets, he, hm, hout, Bind.bind, Except.bind, pure, Except.pure]
      · simp [hen, hkeys]

/-- Witness for C4: one good record and one errored record; only the good
record's key survives. -/
theorem c4_error_records_filtered_witness :
    ∃ out,
      aggregate_buckets
        [("good", scenarioRec1),
         ("bad", { bucket_name := some "bad", error := some "Access denied",
                   object_count := some 0, total_size := some 0 })] = .ok out ∧
      out.map Prod.fst =
        ([("good", scenarioRec1),
          ("bad", { bucket_name := some "bad", error := some "Access denied",
                    object_count := some 0, total_size := some 0 })].filter
            (fun p => p.2.error.isNone)).map Prod.fst := by
  apply c4_error_records_filtered
  intro p hp he
  rcases List.mem_cons.1 hp with h | h
  · subst h
    exact ⟨_, rfl⟩
  · rcases List.mem_cons.1 h with h1 | h1
    · subst h1
      simp at he
    · simp at h1

/-- C8: `get_top_buckets` (on a valid numeric sort key) and
`get_top_extensions` return at most `top_n` items and at most the number of
available entries (exactly `min top_n available`); when `top_n` is at least
the available count the whole input comes back (as a permutation); and the
output is sorted in descending order of the chosen field (`sort_by` for
buckets, `count` for extensions). -/
theorem c8_top_n_truncation :
    (∀ (bucket_metrics : List (String × BucketMetrics)) (top_n : Nat) (sort_by : String)
        (f : BucketMetrics → ℚ),
      lookupKey sort_by numericFields = some f →
      ∃ out, get_top_buckets bucket_metrics top_n sort_by = .ok out ∧
        out.length = min top_n bucket_metrics.length ∧
        out.Pairwise (fun a b => f b.2 ≤ f a.2) ∧
        (bucket_metrics.length ≤ top_n → out.Perm bucket_metrics)) ∧
    (∀ (account_metrics : AccountMetrics) (top_n : Nat),
      (get_top_extensions account_metrics top_n).length =
        min top_n account_metrics.file_extensions.length ∧
      (get_top_extensions account_metrics top_n).Pairwise
        (fun a b => b.2.count ≤ a.2.count) ∧
      (account_metrics.file_extensions.length ≤ top_n →
        (get_top_extensions account_metrics top_n).Perm account_metrics.file_extensions)) := by
  constructor
  · intro bm top_n sort_by f hf
    have htrans : ∀ a b c : String × BucketMetrics,
        bucketDescLe f a b = true → bucketDescLe f b c = true → bucketDescLe f a c = true := by
      intro a b c hab hbc
      simp [bucketDescLe] at hab hbc ⊢
      exact hbc.trans hab
    have htotal : ∀ a b : String × BucketMetrics,
        (bucketDescLe f a b || bucketDescLe f b a) = true := by
      intro a b
      simpa [bucketDescLe] using le_total (f b.2) (f a.2)
    refine ⟨_, by unfold get_top_buckets; rw [hf], ?_, ?_, ?_⟩
    · rw [List.length_take, List.length_mergeSort]
    · have hs := List.sorted_mergeSort htrans htotal bm
      have hs' : (bm.mergeSort (bucketDescLe f)).Pairwise (fun a b => f b.2 ≤ f a.2) :=
        hs.imp (fun h => by simpa [bucketDescLe] using h)
      exact hs'.sublist (List.take_sublist _ _)
    · intro hlen
      rw [List.take_of_length_le (by rw [List.length_mergeSort]; exact hlen)]
      exact List.mergeSort_perm bm _
  · intro am top_n
    have htrans : ∀ a b c : String × ExtAcc,
        extDescLe a b = true → extDescLe b c = true → extDescLe a c = true := by
      intro a b c hab hbc
      simp [extDescLe] at hab hbc ⊢
      exact hbc.trans hab
    have htotal : ∀ a b : String × ExtAcc, (extDescLe a b || extDescLe b a) = true := by
      intro a b
      simpa [extDescLe] using Nat.le_total b.2.count a.2.count
    refine ⟨?_, ?_, ?_⟩
    · rw [get_top_extensions, List.length_take, List.length_mergeSort]
    · have hs := List.sorted_mergeSort htrans htotal am.file_extensions
      have hs' : (am.file_extensions.mergeSort extDescLe).Pairwise
          (fun a b => b.2.count ≤ a.2.count) :=
        hs.imp (fun h => by simpa [extDescLe] using h)
      exact hs'.sublist (List.take_sublist _ _)
    · intro hlen
      rw [get_top_extensions,
        List.take_of_length_le (by rw [List.length_mergeSort]; exact hlen)]
      exact List.mergeSort_perm am.file_extensions _

/-- Witness for C8 on the scenario data with `top_n = 1` and
`sort_by = "total_size"`. -/
theorem c8_top_n_truncation_witness :
    (∃ out, get_top_buckets scenarioMetrics 1 "total_size" = .ok out ∧
        out.length = min 1 scenarioMetrics.length ∧
        out.Pairwise (fun a b => (b.2.total_size : ℚ) ≤ (a.2.total_size : ℚ)) ∧
        (scenarioMetrics.length ≤ 1 → out.Perm scenarioMetrics)) ∧
    ((get_top_extensions (aggregate_account scenarioMetrics) 1).length =
        min 1 (aggregate_account scenarioMetrics).file_extensions.length ∧
      (get_top_extensions (aggregate_account scenarioMetrics) 1).Pairwise
        (fun a b => b.2.count ≤ a.2.count) ∧
      ((aggregate_account scenarioMetrics).file_extensions.length ≤ 1 →
        (get_top_extensions (aggregate_account scenarioMetrics) 1).Perm
          (aggregate_account scenarioMetrics).file_extensions)) :=
  ⟨c8_top_n_truncation.1 scenarioMetrics 1 "total_size" (fun m => (m.total_size : ℚ)) rfl,
   c8_top_n_truncation.2 (aggregate_account scenarioMetrics) 1⟩

/-! ### Characterization of the account-level accumulators -/

/-- Count stored for class `c` in the account accumulator (0 when absent). -/
def scCountAt (c : String) (m : List (String × SCAcc)) : Nat :=
  ((lookupKey c m).map SCAcc.count).getD 0

/-- Estimated size stored for class `c` in the account accumulator. -/
def scSizeAt (c : String) (m : List (String × SCAcc)) : ℚ :=
  ((lookupKey c m).map SCAcc.size).getD 0

/-- Whether class `c` has an entry in the account accumulator. -/
def scMemAt (c : String) (m : List (String × SCAcc)) : Bool :=
  (lookupKey c m).isSome

/-- The combined effect of one `scStep` on the entry at its own key. -/
def scNext (oc ts cnt : Nat) (e : SCAcc) : SCAcc :=
  if oc > 0 then
    SCAcc.mk (e.count + cnt) (e.size + (cnt : ℚ) * ((ts : ℚ) / (oc : ℚ)))
      ((e.size + (cnt : ℚ) * ((ts : ℚ) / (oc : ℚ))) / 1024 ^ 3)
  else
    SCAcc.mk (e.count + cnt) e.size e.size_gb

theorem lookupKey_insertZero (c c0 : String) (z : β) (m : List (String × β)) :
    lookupKey c (if hasKey c0 m then m else m ++ [(c0, z)]) =
      if c = c0 then some ((lookupKey c m).getD z) else lookupKey c m := by
  by_cases hk : hasKey c0 m
  · rw [if_pos hk]
    by_cases hc : c = c0
    · subst hc
      unfold hasKey at hk
      cases h : lookupKey c m with
      | none => rw [h] at hk; simp at hk
      | some v => simp [h]
    · simp [hc]
  · rw [if_neg hk, lookupKey_append]
    by_cases hc : c = c0
    · subst hc
      unfold hasKey at hk
      cases h : lookupKey c m with
      | none => simp [h, lookupKey]
      | some v => rw [h] at hk; simp at hk
    · have hc' : ¬ c0 = c := fun h => hc h.symm
      cases h : lookupKey c m with
      | none => simp [h, hc, lookupKey, hc']
      | some v => simp [h, hc]

theorem lookupKey_scStep (oc ts : Nat) (m : List (String × SCAcc)) (c0 : String) (cnt : Nat)
    (c : String) :
    lookupKey c (scStep oc ts m c0 cnt) =
      if c = c0 then some (scNext oc ts cnt ((lookupKey c m).getD (SCAcc.mk 0 0 0)))
      else lookupKey c m := by
  by_cases hoc : oc > 0
  · simp only [scStep, hoc, if_true]
    rw [lookupKey_updAt, lookupKey_updAt, lookupKey_insertZero]
    by_cases hc : c = c0
    · subst hc
      cases h : lookupKey c m <;> simp [scNext, hoc]
    · simp [hc]
  · simp only [scStep, hoc, if_false]
    rw [lookupKey_updAt, lookupKey_insertZero]
    by_cases hc : c = c0
    · subst hc
      cases h : lookupKey c m <;> simp [scNext, hoc]
    · simp [hc]

theorem scCountAt_scStep (oc ts : Nat) (m : List (String × SCAcc)) (c0 : String) (cnt : Nat)
    (c : String) :
    scCountAt c (scStep oc ts m c0 cnt) = scCountAt c m + (if c = c0 then cnt else 0) := by
  unfold scCountAt
  rw [lookupKey_scStep]
  by_cases hc : c = c0
  · subst hc
    cases h : lookupKey c m <;> by_cases hoc : oc > 0 <;> simp [h, scNext, hoc]
  · simp [hc]

theorem scSizeAt_scStep (oc ts : Nat) (m : List (String × SCAcc)) (c0 : String) (cnt : Nat)
    (c : String) :
    scSizeAt c (scStep oc ts m c0 cnt) =
      scSizeAt c m +
        (if c = c0 ∧ 0 < oc then (cnt : ℚ) * ((ts : ℚ) / (oc : ℚ)) else 0) := by
  unfold scSizeAt
  rw [lookupKey_scStep]
  by_cases hc : c = c0
  · subst hc
    cases h : lookupKey c m <;> by_cases hoc : 0 < oc <;> simp [h, scNext, hoc]
  · simp [hc]

theorem scMemAt_scStep (oc ts : Nat) (m : List (String × SCAcc)) (c0 : String) (cnt : Nat)
    (c : String) :
    scMemAt c (scStep oc ts m c0 cnt) = (scMemAt c m || decide (c = c0)) := by
  unfold scMemAt
  rw [lookupKey_scStep]
  by_cases hc : c = c0
  · simp [hc]
  · simp [hc]

theorem scCountAt_foldEntries (oc ts : Nat) (entries : List (String × Nat))
    (m : List (String × SCAcc)) (c : String) :
    scCountAt c (entries.foldl (fun acc p => scStep oc ts acc p.1 p.2) m) =
      scCountAt c m + (entries.map (fun p => if p.1 = c then p.2 else 0)).sum := by
  induction entries generalizing m with
  | nil => simp
  | cons p rest ih =>
    rw [List.foldl_cons, ih, scCountAt_scStep, List.map_cons, List.sum_cons]
    by_cases h : c = p.1
    · simp [h]
      omega
    · have h' : ¬ p.1 = c := fun hh => h hh.symm
      simp [h, h']

theorem scSizeAt_foldEntries (oc ts : Nat) (entries : List (String × Nat))
    (m : List (String × SCAcc)) (c : String) :
    scSizeAt c (entries.foldl (fun acc p => scStep oc ts acc p.1 p.2) m) =
      scSizeAt c m +
        (if 0 < oc then
          ((entries.map (fun p => if p.1 = c then p.2 else 0)).sum : ℚ) * ((ts : ℚ) / (oc : ℚ))
        else 0) := by
  induction entries generalizing m with
  | nil => simp
  | cons p rest ih =>
    rw [List.foldl_cons, ih, scSizeAt_scStep, List.map_cons, List.sum_cons]
    by_cases hoc : 0 < oc
    · by_cases h : c = p.1
      · rw [if_pos (⟨h, hoc⟩ : c = p.1 ∧ 0 < oc), if_pos hoc, if_pos hoc,
          if_pos (h.symm : p.1 = c)]
        ring
      · have h' : ¬ p.1 = c := fun hh => h hh.symm
        rw [if_neg (fun hh : c = p.1 ∧ 0 < oc => h hh.1), if_pos hoc, if_pos hoc, if_neg h']
        ring
    · rw [if_neg (fun hh : c = p.1 ∧ 0 < oc => hoc hh.2), if_neg hoc, if_neg hoc]
      ring

theorem scMemAt_foldEntries (oc ts : Nat) (entries : List (String × Nat))
    (m : List (String × SCAcc)) (c : String) :
    scMemAt c (entries.foldl (fun acc p => scStep oc ts acc p.1 p.2) m) =
      (scMemAt c m || entries.any (fun p => p.1 = c)) := by
  induction entries generalizing m with
  | nil => simp
  | cons p rest ih =>
    rw [List.foldl_cons, ih, scMemAt_scStep, List.any_cons]
    by_cases h : c = p.1
    · simp [h]
    · have h' : ¬ p.1 = c := fun hh => h hh.symm
      simp [h, h']

/-- The component-wise characterization of the `aggregate_account` fold. -/
theorem foldAcc_proj (l : List (String × BucketMetrics)) (st : AccState) :
    l.foldl (fun s p => foldBucket s p.2) st =
      AccState.mk
        (st.total_objects + (l.map (fun p => p.2.object_count)).sum)
        (st.total_size + (l.map (fun p => p.2.total_size)).sum)
        (l.foldl
          (fun m p => p.2.storage_classes.foldl
            (fun acc q => scStep p.2.object_count p.2.total_size acc q.1 q.2) m)
          st.storage_classes)
        (l.foldl (fun m p => p.2.file_extensions.foldl (fun acc q => extStep acc q.1 q.2) m)
          st.file_extensions)
        (st.age_recent + (l.map (fun p => p.2.age_buckets.recent)).sum)
        (st.age_old + (l.map (fun p => p.2.age_buckets.old)).sum)
        (l.foldl (fun m p => incRegion p.2.region m) st.regions)
        (st.sampled_buckets + (l.map (fun p => if p.2.sampled then 1 else 0)).sum) := by
  induction l generalizing st with
  | nil => simp
  | cons p rest ih =>
    rw [List.foldl_cons, ih]
    simp [foldBucket, Nat.add_assoc]

theorem scCountAt_foldBuckets (l : List (String × BucketMetrics))
    (m : List (String × SCAcc)) (c : String) :
    scCountAt c (l.foldl
        (fun m p => p.2.storage_classes.foldl
          (fun acc q => scStep p.2.object_count p.2.total_size acc q.1 q.2) m) m) =
      scCountAt c m + (l.map (fun p => specClassCount c p.2)).sum := by
  induction l generalizing m with
  | nil => simp
  | cons p rest ih =>
    rw [List.foldl_cons, ih, scCountAt_foldEntries, List.map_cons, List.sum_cons]
    unfold specClassCount
    omega

theorem scSizeAt_foldBuckets (l : List (String × BucketMetrics))
    (m : List (String × SCAcc)) (c : String) :
    scSizeAt c (l.foldl
        (fun m p => p.2.storage_classes.foldl
          (fun acc q => scStep p.2.object_count p.2.total_size acc q.1 q.2) m) m) =
      scSizeAt c m + (l.map (fun p => specClassSize c p.2)).sum := by
  induction l generalizing m with
  | nil => simp
  | cons p rest ih =>
    rw [List.foldl_cons, ih, scSizeAt_foldEntries, List.map_cons, List.sum_cons]
    have hhead :
        (if 0 < p.2.object_count then
          ((p.2.storage_classes.map (fun q => if q.1 = c then q.2 else 0)).sum : ℚ) *
            ((p.2.total_size : ℚ) / (p.2.object_count : ℚ))
        else 0) = specClassSize c p.2 := by
      unfold specClassSize specClassCount
      simp only [gt_iff_lt]
      by_cases hoc : 0 < p.2.object_count
      · rw [if_pos hoc, if_pos hoc, Nat.cast_list_sum, List.map_map]
        have hmap :
            List.map (fun q : String × Nat => if q.1 = c then (q.2 : ℚ) else 0)
                p.2.storage_classes =
              List.map (Nat.cast ∘ fun q : String × Nat => if q.1 = c then q.2 else 0)
                p.2.storage_classes := by
          apply List.map_congr_left
          intro q _
          by_cases hq : q.1 = c <;> simp [hq]
        rw [hmap]
      · rw [if_neg hoc, if_neg hoc]
    rw [hhead, add_assoc]

theorem scMemAt_foldBuckets (l : List (String × BucketMetrics))
    (m : List (String × SCAcc)) (c : String) :
    scMemAt c (l.foldl
        (fun m p => p.2.storage_classes.foldl
          (fun acc q => scStep p.2.object_count p.2.total_size acc q.1 q.2) m) m) =
      (scMemAt c m || l.any (fun p => p.2.storage_classes.any (fun q => q.1 = c))) := by
  induction l generalizing m with
  | nil => simp
  | cons p rest ih =>
    rw [List.foldl_cons, ih, scMemAt_foldEntries, List.any_cons, Bool.or_assoc]

/-- "`size_gb` tracks `size / 2^30`" at key `c`. -/
def gbOkAt (c : String) (m : List (String × SCAcc)) : Prop :=
  ∀ e, lookupKey c m = some e → e.size_gb = e.size / 1024 ^ 3

theorem gbOkAt_scStep (oc ts : Nat) (m : List (String × SCAcc)) (c0 : String) (cnt : Nat)
    (c : String) (h : gbOkAt c m) : gbOkAt c (scStep oc ts m c0 cnt) := by
  intro e he
  rw [lookupKey_scStep] at he
  by_cases hc : c = c0
  · rw [if_pos hc, Option.some.injEq] at he
    subst he
    unfold scNext
    by_cases hoc : oc > 0
    · rw [if_pos hoc]
    · rw [if_neg hoc]
      cases hl : lookupKey c m with
      | none => simp [hl]
      | some v => simpa [hl] using h v hl
  · rw [if_neg hc] at he
    exact h e he

theorem gbOkAt_foldEntries (oc ts : Nat) (entries : List (String × Nat))
    (m : List (String × SCAcc)) (c : String) (h : gbOkAt c m) :
    gbOkAt c (entries.foldl (fun acc p => scStep oc ts acc p.1 p.2) m) := by
  induction entries generalizing m with
  | nil => exact h
  | cons p rest ih =>
    rw [List.foldl_cons]
    exact ih _ (gbOkAt_scStep oc ts m p.1 p.2 c h)

theorem gbOkAt_foldBuckets (l : List (String × BucketMetrics))
    (m : List (String × SCAcc)) (c : String) (h : gbOkAt c m) :
    gbOkAt c (l.foldl
      (fun m p => p.2.storage_classes.foldl
        (fun acc q => scStep p.2.object_count p.2.total_size acc q.1 q.2) m) m) := by
  induction l generalizing m with
  | nil => exact h
  | cons p rest ih =>
    rw [List.foldl_cons]
    exact ih _ (gbOkAt_foldEntries _ _ _ _ _ h)

theorem account_storage_classes (l : List (String × BucketMetrics)) :
    (aggregate_account l).storage_classes =
      l.foldl
        (fun m p => p.2.storage_classes.foldl
          (fun acc q => scStep p.2.object_count p.2.total_size acc q.1 q.2) m) [] := by
  unfold aggregate_account
  rw [foldAcc_proj]
  simp [initAccState]

/-- C6: for every bucket-metrics mapping and every class label, the
account-level `storage_classes` entry holds (i) a count equal to the sum of
the per-bucket counts for that label, (ii) an estimated size equal to the sum
over buckets of `count * (total_size / object_count)` with 0 contribution from
empty buckets — i.e. a sum of per-bucket local estimates, not a recomputation
from account totals — (iii) an entry exists exactly when some bucket mentions
the label (created zero-initialized on first sight), and (iv) `size_gb` is
the accumulated size over `2^30`. -/
theorem c6_classwise_local_estimates (l : List (String × BucketMetrics)) (c : String) :
    scCountAt c (aggregate_account l).storage_classes =
      (l.map (fun p => specClassCount c p.2)).sum ∧
    scSizeAt c (aggregate_account l).storage_classes =
      (l.map (fun p => specClassSize c p.2)).sum ∧
    scMemAt c (aggregate_account l).storage_classes =
      l.any (fun p => p.2.storage_classes.any (fun q => q.1 = c)) ∧
    ∀ e, lookupKey c (aggregate_account l).storage_classes = some e →
      e.size_gb = e.size / 1024 ^ 3 := by
  rw [account_storage_classes]
  refine ⟨?_, ?_, ?_, ?_⟩
  · rw [scCountAt_foldBuckets]
    simp [scCountAt, lookupKey]
  · rw [scSizeAt_foldBuckets]
    simp [scSizeAt, lookupKey]
  · rw [scMemAt_foldBuckets]
    simp [scMemAt, lookupKey]
  · exact gbOkAt_foldBuckets l [] c (by intro e he; simp [lookupKey] at he)

/-- Witness for C6 on the scenario data at class `STANDARD`. -/
theorem c6_classwise_local_estimates_witness :
    scCountAt "STANDARD" (aggregate_account scenarioMetrics).storage_classes =
      (scenarioMetrics.map (fun p => specClassCount "STANDARD" p.2)).sum ∧
    scSizeAt "STANDARD" (aggregate_account scenarioMetrics).storage_classes =
      (scenarioMetrics.map (fun p => specClassSize "STANDARD" p.2)).sum ∧
    (∃ e, lookupKey "STANDARD" (aggregate_account scenarioMetrics).storage_classes = some e ∧
      e.size_gb = e.size / 1024 ^ 3) :=
  ⟨(c6_classwise_local_estimates scenarioMetrics "STANDARD").1,
   (c6_classwise_local_estimates scenarioMetrics "STANDARD").2.1,
   ⟨_, rfl, (c6_classwise_local_estimates scenarioMetrics "STANDARD").2.2.2 _ rfl⟩⟩

/-! ### Extension-map accumulator characterization -/

/-- Count stored for extension `c` in the account accumulator (0 when absent). -/
def extCountAt (c : String) (m : List (String × ExtAcc)) : Nat :=
  ((lookupKey c m).map ExtAcc.count).getD 0

/-- Byte size stored for extension `c` in the account accumulator. -/
def extSizeAt (c : String) (m : List (String × ExtAcc)) : Nat :=
  ((lookupKey c m).map ExtAcc.size).getD 0

/-- Whether extension `c` has an entry in the account accumulator. -/
def extMemAt (c : String) (m : List (String × ExtAcc)) : Bool :=
  (lookupKey c m).isSome

/-- The combined effect of one `extStep` on the entry at its own key. -/
def extNext (d : ExtData) (a : ExtAcc) : ExtAcc :=
  ExtAcc.mk (a.count + d.count) (a.size + d.size) (((a.size + d.size : Nat) : ℚ) / 1024 ^ 3)

theorem lookupKey_extStep (m : List (String × ExtAcc)) (e0 : String) (d : ExtData)
    (c : String) :
    lookupKey c (extStep m e0 d) =
      if c = e0 then some (extNext d ((lookupKey c m).getD (ExtAcc.mk 0 0 0)))
      else lookupKey c m := by
  unfold extStep
  rw [lookupKey_updAt, lookupKey_insertZero]
  by_cases hc : c = e0
  · subst hc
    cases h : lookupKey c m <;> simp [extNext]
  · simp [hc]

theorem extCountAt_extStep (m : List (String × ExtAcc)) (e0 : String) (d : ExtData)
    (c : String) :
    extCountAt c (extStep m e0 d) = extCountAt c m + (if c = e0 then d.count else 0) := by
  unfold extCountAt
  rw [lookupKey_extStep]
  by_cases hc : c = e0
  · subst hc
    cases h : lookupKey c m <;> simp [h, extNext]
  · simp [hc]

theorem extSizeAt_extStep (m : List (String × ExtAcc)) (e0 : String) (d : ExtData)
    (c : String) :
    extSizeAt c (extStep m e0 d) = extSizeAt c m + (if c = e0 then d.size else 0) := by
  unfold extSizeAt
  rw [lookupKey_extStep]
  by_cases hc : c = e0
  · subst hc
    cases h : lookupKey c m <;> simp [h, extNext]
  · simp [hc]

theorem extMemAt_extStep (m : List (String × ExtAcc)) (e0 : String) (d : ExtData)
    (c : String) :
    extMemAt c (extStep m e0 d) = (extMemAt c m || decide (c = e0)) := by
  unfold extMemAt
  rw [lookupKey_extStep]
  by_cases hc : c = e0 <;> simp [hc]

theorem extCountAt_foldEntries (entries : List (String × ExtData))
    (m : List (String × ExtAcc)) (c : String) :
    extCountAt c (entries.foldl (fun acc p => extStep acc p.1 p.2) m) =
      extCountAt c m + (entries.map (fun p => if p.1 = c then p.2.count else 0)).sum := by
  induction entries generalizing m with
  | nil => simp
  | cons p rest ih =>
    rw [List.foldl_cons, ih, extCountAt_extStep, List.map_cons, List.sum_cons]
    by_cases h : c = p.1
    · simp [h]
      omega
    · have h' : ¬ p.1 = c := fun hh => h hh.symm
      simp [h, h']

theorem extSizeAt_foldEntries (entries : List (String × ExtData))
    (m : List (String × ExtAcc)) (c : String) :
    extSizeAt c (entries.foldl (fun acc p => extStep acc p.1 p.2) m) =
      extSizeAt c m + (entries.map (fun p => if p.1 = c then p.2.size else 0)).sum := by
  induction entries generalizing m with
  | nil => simp
  | cons p rest ih =>
    rw [List.foldl_cons, ih, extSizeAt_extStep, List.map_cons, List.sum_cons]
    by_cases h : c = p.1
    · simp [h]
      omega
    · have h' : ¬ p.1 = c := fun hh => h hh.symm
      simp [h, h']

theorem extMemAt_foldEntries (entries : List (String × ExtData))
    (m : List (String × ExtAcc)) (c : String) :
    extMemAt c (entries.foldl (fun acc p => extStep acc p.1 p.2) m) =
      (extMemAt c m || entries.any (fun p => p.1 = c)) := by
  induction entries generalizing m with
  | nil => simp
  | cons p rest ih =>
    rw [List.foldl_cons, ih, extMemAt_extStep, List.any_cons]
    by_cases h : c = p.1
    · simp [h]
    · have h' : ¬ p.1 = c := fun hh => h hh.symm
      simp [h, h']

theorem extCountAt_foldBuckets (l : List (String × BucketMetrics))
    (m : List (String × ExtAcc)) (c : String) :
    extCountAt c (l.foldl
        (fun m p => p.2.file_extensions.foldl (fun acc q => extStep acc q.1 q.2) m) m) =
      extCountAt c m + (l.map (fun p => specExtCount c p.2)).sum := by
  induction l generalizing m with
  | nil => simp
  | cons p rest ih =>
    rw [List.foldl_cons, ih, extCountAt_foldEntries, List.map_cons, List.sum_cons]
    unfold specExtCount
    omega

theorem extSizeAt_foldBuckets (l : List (String × BucketMetrics))
    (m : List (String × ExtAcc)) (c : String) :
    extSizeAt c (l.foldl
        (fun m p => p.2.file_extensions.foldl (fun acc q => extStep acc q.1 q.2) m) m) =
      extSizeAt c m + (l.map (fun p => specExtSize c p.2)).sum := by
  induction l generalizing m with
  | nil => simp
  | cons p rest ih =>
    rw [List.foldl_cons, ih, extSizeAt_foldEntries, List.map_cons, List.sum_cons]
    unfold specExtSize
    omega

theorem extMemAt_foldBuckets (l : List (String × BucketMetrics))
    (m : List (String × ExtAcc)) (c : String) :
    extMemAt c (l.foldl
        (fun m p => p.2.file_extensions.foldl (fun acc q => extStep acc q.1 q.2) m) m) =
      (extMemAt c m || l.any (fun p => p.2.file_extensions.any (fun q => q.1 = c))) := by
  induction l generalizing m with
  | nil => simp
  | cons p rest ih =>
    rw [List.foldl_cons, ih, extMemAt_foldEntries, List.any_cons, Bool.or_assoc]

theorem nodupKeys_extStep (m : List (String × ExtAcc)) (e0 : String) (d : ExtData)
    (h : (m.map Prod.fst).Nodup) : ((extStep m e0 d).map Prod.fst).Nodup := by
  unfold extStep
  rw [keys_updAt]
  by_cases hk : hasKey e0 m
  · rw [if_pos hk]
    exact h
  · rw [if_neg hk, List.map_append]
    have hmem : e0 ∉ m.map Prod.fst := by
      intro hmem
      exact hk ((lookupKey_isSome_iff_mem e0 m).2 hmem)
    rw [List.nodup_append]
    refine ⟨h, List.nodup_singleton e0, ?_⟩
    intro a ha hb
    simp at hb
    subst hb
    exact hmem ha

theorem nodupKeys_extFoldEntries (entries : List (String × ExtData))
    (m : List (String × ExtAcc)) (h : (m.map Prod.fst).Nodup) :
    (((entries.foldl (fun acc p => extStep acc p.1 p.2) m)).map Prod.fst).Nodup := by
  induction entries generalizing m with
  | nil => exact h
  | cons p rest ih =>
    rw [List.foldl_cons]
    exact ih _ (nodupKeys_extStep m p.1 p.2 h)

theorem nodupKeys_extFoldBuckets (l : List (String × BucketMetrics))
    (m : List (String × ExtAcc)) (h : (m.map Prod.fst).Nodup) :
    ((l.foldl
        (fun m p => p.2.file_extensions.foldl (fun acc q => extStep acc q.1 q.2) m) m).map
      Prod.fst).Nodup := by
  induction l generalizing m with
  | nil => exact h
  | cons p rest ih =>
    rw [List.foldl_cons]
    exact ih _ (nodupKeys_extFoldEntries _ _ h)

theorem account_file_extensions (l : List (String × BucketMetrics)) :
    (aggregate_account l).file_extensions =
      (l.foldl
        (fun m p => p.2.file_extensions.foldl (fun acc q => extStep acc q.1 q.2) m)
        []).mergeSort extDescLe := by
  unfold aggregate_account
  rw [foldAcc_proj]
  simp [initAccState]

/-- The final descending re-sort of `file_extensions` does not change what is
stored under any label (keys are unique in the accumulator). -/
theorem lookupKey_account_file_extensions (l : List (String × BucketMetrics)) (c : String) :
    lookupKey c (aggregate_account l).file_extensions =
      lookupKey c (l.foldl
        (fun m p => p.2.file_extensions.foldl (fun acc q => extStep acc q.1 q.2) m) []) := by
  rw [account_file_extensions]
  have hnd : ((l.foldl
      (fun m p => p.2.file_extensions.foldl (fun acc q => extStep acc q.1 q.2) m)
      []).map Prod.fst).Nodup :=
    nodupKeys_extFoldBuckets l [] (by simp)
  have hperm := List.mergeSort_perm
    (l.foldl (fun m p => p.2.file_extensions.foldl (fun acc q => extStep acc q.1 q.2) m) [])
    extDescLe
  exact lookupKey_perm c _ _ hperm ((hperm.map Prod.fst).nodup_iff.2 hnd)

theorem account_totals (l : List (String × BucketMetrics)) :
    (aggregate_account l).total_objects = (l.map (fun p => p.2.object_count)).sum ∧
    (aggregate_account l).total_size = (l.map (fun p => p.2.total_size)).sum ∧
    (aggregate_account l).age_buckets =
      AgeBuckets.mk (l.map (fun p => p.2.age_buckets.recent)).sum
        (l.map (fun p => p.2.age_buckets.old)).sum := by
  unfold aggregate_account
  rw [foldAcc_proj]
  simp [initAccState]

theorem perm_any (l1 l2 : List α) (hp : l1.Perm l2) (f : α → Bool) :
    l1.any f = l2.any f := by
  by_cases h : l1.any f = true
  · rw [h]
    rcases List.any_eq_true.1 h with ⟨x, hx, hfx⟩
    exact (List.any_eq_true.2 ⟨x, hp.mem_iff.1 hx, hfx⟩).symm
  · have h2 : ¬ l2.any f = true := by
      intro hh
      rcases List.any_eq_true.1 hh with ⟨x, hx, hfx⟩
      exact h (List.any_eq_true.2 ⟨x, hp.mem_iff.2 hx, hfx⟩)
    rw [Bool.not_eq_true] at h h2
    rw [h, h2]

/-- C5: `aggregate_account` applied to any permutation of the bucket-metrics
mapping yields the same `total_objects`, `total_size` and `age_buckets` sums,
and the same per-label values (count and estimated/summed size, and presence
of the label) in the `storage_classes` and `file_extensions` mappings, since
each bucket's contribution depends only on that bucket's own values. -/
theorem c5_order_independent_sums (l1 l2 : List (String × BucketMetrics))
    (hp : l1.Perm l2) :
    (aggregate_account l1).total_objects = (aggregate_account l2).total_objects ∧
    (aggregate_account l1).total_size = (aggregate_account l2).total_size ∧
    (aggregate_account l1).age_buckets = (aggregate_account l2).age_buckets ∧
    (∀ c,
      scCountAt c (aggregate_account l1).storage_classes =
        scCountAt c (aggregate_account l2).storage_classes ∧
      scSizeAt c (aggregate_account l1).storage_classes =
        scSizeAt c (aggregate_account l2).storage_classes ∧
      scMemAt c (aggregate_account l1).storage_classes =
        scMemAt c (aggregate_account l2).storage_classes) ∧
    (∀ c,
      extCountAt c (aggregate_account l1).file_extensions =
        extCountAt c (aggregate_account l2).file_extensions ∧
      extSizeAt c (aggregate_account l1).file_extensions =
        extSizeAt c (aggregate_account l2).file_extensions ∧
      extMemAt c (aggregate_account l1).file_extensions =
        extMemAt c (aggregate_account l2).file_extensions) := by
  refine ⟨?_, ?_, ?_, ?_, ?_⟩
  · rw [(account_totals l1).1, (account_totals l2).1, (hp.map _).sum_eq]
  · rw [(account_totals l1).2.1, (account_totals l2).2.1, (hp.map _).sum_eq]
  · rw [(account_totals l1).2.2, (account_totals l2).2.2, (hp.map _).sum_eq, (hp.map _).sum_eq]
  · intro c
    refine ⟨?_, ?_, ?_⟩
    · rw [(c6_classwise_local_estimates l1 c).1, (c6_classwise_local_estimates l2 c).1,
        (hp.map _).sum_eq]
    · rw [(c6_classwise_local_estimates l1 c).2.1, (c6_classwise_local_estimates l2 c).2.1,
        (hp.map _).sum_eq]
    · rw [(c6_classwise_local_estimates l1 c).2.2.1, (c6_classwise_local_estimates l2 c).2.2.1]
      exact perm_any l1 l2 hp _
  · intro c
    refine ⟨?_, ?_, ?_⟩
    · unfold extCountAt
      rw [lookupKey_account_file_extensions, lookupKey_account_file_extensions]
      have h1 := extCountAt_foldBuckets l1 [] c
      have h2 := extCountAt_foldBuckets l2 [] c
      unfold extCountAt at h1 h2
      rw [h1, h2, (hp.map _).sum_eq]
    · unfold extSizeAt
      rw [lookupKey_account_file_extensions, lookupKey_account_file_extensions]
      have h1 := extSizeAt_foldBuckets l1 [] c
      have h2 := extSizeAt_foldBuckets l2 [] c
      unfold extSizeAt at h1 h2
      rw [h1, h2, (hp.map _).sum_eq]
    · unfold extMemAt
      rw [lookupKey_account_file_extensions, lookupKey_account_file_extensions]
      have h1 := extMemAt_foldBuckets l1 [] c
      have h2 := extMemAt_foldBuckets l2 [] c
      unfold extMemAt at h1 h2
      rw [h1, h2]
      exact perm_any l1 l2 hp _

/-- Witness for C5: the reversed scenario metrics list is a permutation of
the original and produces the same totals and per-label values. -/
theorem c5_order_independent_sums_witness :
    (aggregate_account scenarioMetrics.reverse).total_objects =
      (aggregate_account scenarioMetrics).total_objects ∧
    (aggregate_account scenarioMetrics.reverse).age_buckets =
      (aggregate_account scenarioMetrics).age_buckets ∧
    scSizeAt "STANDARD" (aggregate_account scenarioMetrics.reverse).storage_classes =
      scSizeAt "STANDARD" (aggregate_account scenarioMetrics).storage_classes ∧
    extCountAt "jpg" (aggregate_account scenarioMetrics.reverse).file_extensions =
      extCountAt "jpg" (aggregate_account scenarioMetrics).file_extensions := by
  have h := c5_order_independent_sums scenarioMetrics.reverse scenarioMetrics
    (List.reverse_perm scenarioMetrics)
  exact ⟨h.1, h.2.2.1, (h.2.2.2.1 "STANDARD").2.1, (h.2.2.2.2 "jpg").1⟩

/-! ### C3: per-class breakdown formulas and the percentage-sum property -/

/-- A record the spec's own data model allows under sampling: the
storage-class counts sum to 5 while `object_count` is 10. -/
def c3SampledRec : RawRecord :=
  { bucket_name := some "partial", region := some "us-east-1",
    object_count := some 10, total_size := some 10240,
    sampled := some true, sample_size := some 5,
    storage_classes := some [("STANDARD", 5)],
    file_extensions := some [("txt", ExtData.mk 5 10240)],
    age_buckets := some (AgeBuckets.mk 3 2),
    inventory_date := some "2023-01-01T00:00:00" }

/-- The spec's in-particular example: 1000 objects, 1,024,000 bytes,
`{STANDARD: 800, STANDARD_IA: 200}`. -/
def c3ExampleRec : RawRecord :=
  { bucket_name := some "example", region := some "us-east-1",
    object_count := some 1000, total_size := some 1024000,
    storage_classes := some [("STANDARD", 800), ("STANDARD_IA", 200)],
    file_extensions := some [("jpg", ExtData.mk 500 512000), ("pdf", ExtData.mk 300 384000),
      ("txt", ExtData.mk 200 128000)],
    age_buckets := some (AgeBuckets.mk 600 400),
    inventory_date := some "2023-01-01T00:00:00" }

/-- C3, counterexample to the claim as stated: a record with
`object_count = 10 > 0` whose storage-class histogram (allowed by the data
model to undercount under sampling) has a single class with count 5; the
class percentages then sum to 50, not 100. -/
theorem c3_percentage_sum_counterexample :
    ∃ m, compute_bucket_metrics c3SampledRec = .ok m ∧
      (m.storage_class_breakdown.map (fun p => p.2.percentage)).sum = 50 ∧
      ¬ (m.storage_class_breakdown.map (fun p => p.2.percentage)).sum = 100 := by
  refine ⟨_, rfl, ?_, ?_⟩ <;>
    norm_num [c3SampledRec, compute_bucket_metrics, reqField,
      Bind.bind, Except.bind, pure, Except.pure]

/-- C3 (amended): for every well-formed record with `object_count > 0`, each
storage class's breakdown entry is exactly `{count, count * (total_size /
object_count), that estimate / 2^30, (count / object_count) * 100}`, and the
percentages across all classes sum to 100 provided the class counts sum to
`object_count` (as for unsampled records; under sampling they may sum to
less, and the percentage sum shrinks accordingly). -/
theorem c3_breakdown_formulas (r : RawRecord) (bn rg inv : String) (oc ts : Nat)
    (sc : List (String × Nat)) (fe : List (String × ExtData)) (ab : AgeBuckets)
    (hoc : 0 < oc)
    (h1 : r.object_count = some oc) (h2 : r.total_size = some ts)
    (h3 : r.bucket_name = some bn) (h4 : r.region = some rg)
    (h5 : r.storage_classes = some sc) (h6 : r.file_extensions = some fe)
    (h7 : r.age_buckets = some ab) (h8 : r.inventory_date = some inv) :
    ∃ m, compute_bucket_metrics r = .ok m ∧
      m.storage_class_breakdown = sc.map (fun p =>
        (p.1, SCBreakdown.mk p.2 ((p.2 : ℚ) * ((ts : ℚ) / (oc : ℚ)))
          ((p.2 : ℚ) * ((ts : ℚ) / (oc : ℚ)) / 1024 ^ 3)
          (((p.2 : ℚ) / (oc : ℚ)) * 100))) ∧
      ((sc.map Prod.snd).sum = oc →
        (m.storage_class_breakdown.map (fun p => p.2.percentage)).sum = 100) := by
  have hne : (oc : ℚ) ≠ 0 := Nat.cast_ne_zero.2 (Nat.pos_iff_ne_zero.1 hoc)
  simp only [compute_bucket_metrics, reqField, h1, h2, h3, h4, h5, h6, h7, h8,
    Bind.bind, Except.bind, pure, Except.pure]
  simp only [gt_iff_lt]
  refine ⟨_, rfl, ?_, ?_⟩
  · apply List.map_congr_left
    intro p _
    rw [if_pos hoc]
  · intro hsum
    have hbody : List.map ((fun p : String × SCBreakdown => p.2.percentage) ∘
        (fun p : String × Nat =>
          if 0 < oc then
            (p.1, SCBreakdown.mk p.2 ((p.2 : ℚ) * ((ts : ℚ) / (oc : ℚ)))
              ((p.2 : ℚ) * ((ts : ℚ) / (oc : ℚ)) / 1024 ^ 3)
              (((p.2 : ℚ) / (oc : ℚ)) * 100))
          else (p.1, SCBreakdown.mk 0 0 0 0))) sc =
        List.map (fun p : String × Nat => (p.2 : ℚ) * (100 / (oc : ℚ))) sc := by
      apply List.map_congr_left
      intro p _
      simp only [Function.comp, if_pos hoc]
      ring
    rw [List.map_map, hbody, List.sum_map_mul_right]
    have hcast : (List.map (fun p : String × Nat => (p.2 : ℚ)) sc).sum =
        ((sc.map Prod.snd).sum : ℚ) := by
      rw [Nat.cast_list_sum, List.map_map]
      rfl
    rw [hcast, hsum]
    rw [mul_comm]
    exact div_mul_cancel₀ 100 hne

/-- Witness for C3 (amended) at the spec's 1000-object example, including the
concrete `STANDARD` entry `{count: 800, percentage: 80, estimated_size:
800 * 1024}`. -/
theorem c3_breakdown_formulas_witness :
    (∃ m, compute_bucket_metrics c3ExampleRec = .ok m ∧
      m.storage_class_breakdown = [("STANDARD", 800), ("STANDARD_IA", 200)].map
        (fun p => (p.1, SCBreakdown.mk p.2 ((p.2 : ℚ) * ((1024000 : ℚ) / (1000 : ℚ)))
          ((p.2 : ℚ) * ((1024000 : ℚ) / (1000 : ℚ)) / 1024 ^ 3)
          (((p.2 : ℚ) / (1000 : ℚ)) * 100))) ∧
      (([("STANDARD", 800), ("STANDARD_IA", 200)].map Prod.snd).sum = 1000 →
        (m.storage_class_breakdown.map (fun p => p.2.percentage)).sum = 100)) ∧
    (∃ m, compute_bucket_metrics c3ExampleRec = .ok m ∧
      lookupKey "STANDARD" m.storage_class_breakdown =
        some (SCBreakdown.mk 800 (800 * 1024) (800 * 1024 / 1024 ^ 3) 80)) := by
  constructor
  · exact c3_breakdown_formulas c3ExampleRec "example" "us-east-1" "2023-01-01T00:00:00"
      1000 1024000 [("STANDARD", 800), ("STANDARD_IA", 200)]
      [("jpg", ExtData.mk 500 512000), ("pdf", ExtData.mk 300 384000),
        ("txt", ExtData.mk 200 128000)]
      (AgeBuckets.mk 600 400) (by decide) rfl rfl rfl rfl rfl rfl rfl rfl
  · refine ⟨_, rfl, ?_⟩
    norm_num [c3ExampleRec, compute_bucket_metrics, reqField, lookupKey,
      Bind.bind, Except.bind, pure, Except.pure, SCBreakdown.mk.injEq]

end S3Insight
